import Mathlib

/-!
Shallow embedding of the statistical validation, meta-analysis and polygenic
risk score components of the astro-genomic-correlations repository:
`src/statistical/validation.py`, `src/integration/comprehensive_analysis.py`
and `src/genetic/polygenic_calculator.py`.

Modelling conventions.
Python floats are modelled as rationals wherever the code performs only field
operations and comparisons, and as real numbers where transcendental
functions appear (tanh, sqrt, the normal quantile in the Fisher confidence
interval, the square-root normalisation of polygenic scores).  Calls into
external libraries (the scipy correlation routines and `stats.norm`) are
modelled as function parameters, with `Option` used where the library can
return NaN; the unseeded global random source is modelled as an explicit
stream of resampling choices passed to the stochastic procedures.  `Except`
models Python exceptions.
-/

namespace AstroGenomic

/-- The `ValidationResult` dataclass of validation.py (lines 8-16), for the
procedures whose arithmetic is purely rational.  `statistic` is `Option ℚ`
so that a NaN correlation coming back from the underlying library is
`none`. -/
structure ValidationResult where
  test_name : String
  statistic : Option ℚ
  p_value : ℚ
  confidence_interval : ℚ × ℚ
  interpretation : String
  passed : Bool
  deriving DecidableEq

/-- The Benjamini-Hochberg backwards pass of
`StatisticalValidator.multiple_testing_correction` (validation.py lines
208-214) over the ascending-sorted p-values paired with their ranks:
the corrected value at rank `i` is the minimum of the next corrected value
and `p * n / (i + 1)`, and the largest rank keeps its p-value. -/
def bhPass (n : ℕ) : List (ℕ × ℚ) → List ℚ
  | [] => []
  | (i, p) :: rest =>
    match bhPass n rest with
    | [] => [p]
    | c :: cs => min c (p * (n : ℚ) / ((i : ℚ) + 1)) :: c :: cs

/-- `np.argsort` (validation.py line 204): the indices of `ps` sorted by
their values. -/
def argsort (ps : List ℚ) : List ℕ :=
  (List.range ps.length).mergeSort (fun i j => decide (ps.getD i 0 ≤ ps.getD j 0))

/-- The numpy fancy store `result[sorted_indices] = corrected` into a zero
array of length `n` (validation.py lines 217-218).  `sorted_indices` is a
permutation of `range n`, so each position receives exactly one value and
first-match lookup agrees with numpy's assignment. -/
def scatterStore (n : ℕ) (idx : List ℕ) (vals : List ℚ) : List ℚ :=
  (List.range n).map (fun j => ((idx.zip vals).lookup j).getD 0)

/-- `StatisticalValidator.multiple_testing_correction` (validation.py lines
185-222). -/
def multiple_testing_correction (p_values : List ℚ) (method : String) :
    Except String (List ℚ) :=
  let n := p_values.length
  if method = "bonferroni" then
    .ok (p_values.map (fun p => p * (n : ℚ)))
  else if method = "fdr" then
    let sorted_indices := argsort p_values
    let sorted_p := sorted_indices.map (fun j => p_values.getD j 0)
    let corrected := bhPass n ((List.range n).zip sorted_p)
    .ok (scatterStore n sorted_indices corrected)
  else
    .error ("Unknown correction method: " ++ method)

/-- The corrected result appended by `comprehensive_validation`
(validation.py lines 283-290); the float formatting inside the
interpretation string is not modelled. -/
def mkCorrected (alpha : ℚ) (r : ValidationResult) (q : ℚ) : ValidationResult :=
  ⟨r.test_name ++ " (FDR corrected)", r.statistic, q, r.confidence_interval,
   r.interpretation ++ " [FDR corrected]", decide (q < alpha)⟩

/-- The inner correction loop of `comprehensive_validation` (validation.py
lines 279-292) for one name, exactly as Python executes it: the `for` loop
iterates over the very list it appends to, so the appended corrected
results are themselves visited.  `done` holds the already visited elements,
`pending` the not yet visited suffix, and `idx` the cursor into the pooled
corrected p-value list `cp`; `Except.error ()` models the IndexError raised
by `corrected_p[idx]` once `idx` runs past the end of `cp`. -/
def fdrCorrectName (alpha : ℚ) (cp : List ℚ) :
    List ValidationResult → List ValidationResult → ℕ →
    Except Unit (List ValidationResult × ℕ)
  | done, [], idx => .ok (done, idx)
  | done, r :: rest, idx =>
    if r.test_name = "Validation Error" then
      fdrCorrectName alpha cp (done ++ [r]) rest idx
    else if h : idx < cp.length then
      fdrCorrectName alpha cp (done ++ [r])
        (rest ++ [mkCorrected alpha r (cp.getD idx 0)]) (idx + 1)
    else
      .error ()
  termination_by _ pending idx => (cp.length - idx, pending.length)
  decreasing_by
    · apply Prod.Lex.right
      simp
    · apply Prod.Lex.left
      omega

/-- The outer correction loop of `comprehensive_validation` (validation.py
lines 279-292) over all names, threading the cursor `idx` through the
per-name inner loops. -/
def fdrCorrectAll (alpha : ℚ) (cp : List ℚ) :
    List (String × List ValidationResult) → ℕ →
    Except Unit (List (String × List ValidationResult))
  | [], _ => .ok []
  | (name, rs) :: rest, idx =>
    match fdrCorrectName alpha cp [] rs idx with
    | .error e => .error e
    | .ok (rs', idx') =>
      match fdrCorrectAll alpha cp rest idx' with
      | .error e => .error e
      | .ok out => .ok ((name, rs') :: out)

/-- The multiple-testing-correction phase of
`StatisticalValidator.comprehensive_validation` (validation.py lines
273-294), taking the already collected per-name results and pooled
p-values. -/
def comprehensive_validation_correction (alpha : ℚ)
    (all_results : List (String × List ValidationResult))
    (all_p_values : List ℚ) :
    Except Unit (List (String × List ValidationResult)) :=
  if 1 < all_p_values.length then
    match multiple_testing_correction all_p_values "fdr" with
    | .ok corrected_p => fdrCorrectAll alpha corrected_p all_results 0
    | .error _ => .error ()
  else
    .ok all_results

/-- `np.percentile` with the default linear interpolation.  numpy sorts the
data internally, matching the explicit `sort()` the callers in
validation.py perform before calling it. -/
def percentile (xs : List ℚ) (q : ℚ) : ℚ :=
  let s := xs.mergeSort (fun a b => decide (a ≤ b))
  let pos := q * ((s.length : ℚ) - 1) / 100
  let frac := pos - ((Int.floor pos : ℤ) : ℚ)
  match s[(Int.floor pos).toNat]?, s[(Int.floor pos).toNat + 1]? with
  | some a, some b => a + frac * (b - a)
  | some a, none => a
  | none, _ => 0

/-- The comparison `abs(corr) <= abs(original_corr)` of validation.py line
121, with `none` modelling a NaN original correlation: every comparison
against NaN is false in Python. -/
def absLeNaN (c : ℚ) (oc : Option ℚ) : Bool :=
  match oc with
  | some v => decide (|c| ≤ |v|)
  | none => false

/-- The comparison `abs(corr) >= abs(original_corr)` of validation.py line
166, with `none` modelling a NaN original correlation. -/
def absGeNaN (c : ℚ) (oc : Option ℚ) : Bool :=
  match oc with
  | some v => decide (|v| ≤ |c|)
  | none => false

/-- The retained bootstrap correlations of
`StatisticalValidator.bootstrap_validation` (validation.py lines 92-103):
one resample per element of the random stream `rng`, each a list of `n`
indices drawn with replacement; a resample on which the library correlation
`corr` returns NaN or raises (`none`) is dropped. -/
def bootstrapCorrs (corr : List ℚ → List ℚ → Option ℚ)
    (rng : List (List ℕ)) (x y : List ℚ) : List ℚ :=
  rng.filterMap (fun idxs =>
    corr (idxs.map (fun i => x.getD i 0)) (idxs.map (fun i => y.getD i 0)))

/-- `StatisticalValidator.bootstrap_validation` (validation.py lines
81-133).  The scipy Spearman call is the parameter `corr` and the unseeded
global random source is the explicit stream `rng` of index draws. -/
def bootstrap_validation (corr : List ℚ → List ℚ → Option ℚ)
    (rng : List (List ℕ)) (x y : List ℚ) : Except String ValidationResult :=
  let n := x.length
  if n < 3 then
    .error "Insufficient data for bootstrap validation"
  else
    let original_corr := corr x y
    let bootstrap_corrs := bootstrapCorrs corr rng x y
    if bootstrap_corrs.isEmpty then
      .ok ⟨"Bootstrap Validation", original_corr, 1, (-1, 1),
           "Bootstrap validation failed", false⟩
    else
      let sorted := bootstrap_corrs.mergeSort (fun a b => decide (a ≤ b))
      let ci_lower := percentile sorted (5/2)
      let ci_upper := percentile sorted (195/2)
      let p_value := ((sorted.countP (fun c => absLeNaN c original_corr) : ℚ)) /
        (sorted.length : ℚ)
      .ok ⟨"Bootstrap Validation", original_corr, p_value, (ci_lower, ci_upper),
           "Bootstrap validation completed", decide (0 < ci_lower * ci_upper)⟩

/-- The retained permutation correlations of
`StatisticalValidator.permutation_test` (validation.py lines 145-153): one
shuffle of `y` per element of the random stream `rng`, each given as the
index permutation the global random source produced. -/
def permCorrs (corr : List ℚ → List ℚ → Option ℚ)
    (rng : List (List ℕ)) (x y : List ℚ) : List ℚ :=
  rng.filterMap (fun idxs => corr x (idxs.map (fun i => y.getD i 0)))

/-- `StatisticalValidator.permutation_test` (validation.py lines 135-183);
`alpha` is the significance level the validator was constructed with. -/
def permutation_test (corr : List ℚ → List ℚ → Option ℚ) (alpha : ℚ)
    (rng : List (List ℕ)) (x y : List ℚ) : Except String ValidationResult :=
  if x.length ≠ y.length ∨ x.length < 3 then
    .error "Invalid data for permutation test"
  else
    let original_corr := corr x y
    let perm_corrs := permCorrs corr rng x y
    if perm_corrs.isEmpty then
      .ok ⟨"Permutation Test", original_corr, 1, (-1, 1),
           "Permutation test failed", false⟩
    else
      let p_value := ((perm_corrs.countP (fun c => absGeNaN c original_corr) : ℚ)) /
        (perm_corrs.length : ℚ)
      let sorted := perm_corrs.mergeSort (fun a b => decide (a ≤ b))
      let ci_lower := percentile sorted (5/2)
      let ci_upper := percentile sorted (195/2)
      .ok ⟨"Permutation Test", original_corr, p_value, (ci_lower, ci_upper),
           "Permutation test completed", decide (p_value < alpha)⟩

/-- The `ValidationResult` dataclass again, for
`StatisticalValidator.validate_correlation`, whose confidence interval
involves tanh and the normal quantile and therefore lives in the reals. -/
structure ValidationResultR where
  test_name : String
  statistic : ℝ
  p_value : ℝ
  confidence_interval : ℝ × ℝ
  interpretation : String
  passed : Bool

/-- `np.arctanh` (validation.py line 54). -/
noncomputable def arctanh (x : ℝ) : ℝ := Real.log ((1 + x) / (1 - x)) / 2

/-- The tail of `StatisticalValidator.validate_correlation` (validation.py
lines 50-79) after the correlation and its p-value have been obtained:
Fisher z confidence interval when `n > 3`, the fixed interval `(-1, 1)`
otherwise, and the significance verdict.  `normPpf` models
`stats.norm.ppf`; the float formatting inside the interpretation strings is
not modelled. -/
noncomputable def correlationResult (test_name : String) (corr p_value : ℝ)
    (normPpf : ℝ → ℝ) (alpha : ℝ) (n : ℕ) : ValidationResultR :=
  open Classical in
  let ci : ℝ × ℝ :=
    if 3 < n then
      let z := arctanh corr
      let se := 1 / Real.sqrt ((n : ℝ) - 3)
      let z_crit := normPpf (1 - alpha / 2)
      (Real.tanh (z - z_crit * se), Real.tanh (z + z_crit * se))
    else
      (-1, 1)
  if p_value < alpha then
    ⟨test_name, corr, p_value, ci, "Significant correlation detected", true⟩
  else
    ⟨test_name, corr, p_value, ci, "No significant correlation", false⟩

/-- `StatisticalValidator.validate_correlation` (validation.py lines
25-79).  The scipy correlation routines are the parameters `pearsonr` and
`spearmanr`, each returning the pair (correlation, two-sided p-value);
`alpha` is the significance level the validator was constructed with. -/
noncomputable def validate_correlation
    (pearsonr spearmanr : List ℝ → List ℝ → ℝ × ℝ) (normPpf : ℝ → ℝ)
    (alpha : ℝ) (x y : List ℝ) (method : String) :
    Except String ValidationResultR :=
  if x.length ≠ y.length ∨ x.length < 3 then
    .error "Invalid data for correlation analysis"
  else if method = "pearson" then
    let cp := pearsonr x y
    .ok (correlationResult "Pearson Correlation" cp.1 cp.2 normPpf alpha x.length)
  else if method = "spearman" then
    let cp := spearmanr x y
    .ok (correlationResult "Spearman Correlation" cp.1 cp.2 normPpf alpha x.length)
  else
    .error ("Unknown correlation method: " ++ method)

/-- One entry of the `methodology_results` mapping consumed by
`ComprehensiveAnalyzer._meta_analyze_results`
(comprehensive_analysis.py lines 158-180): the method correlation, the
fixed method weight, and the optional `confidence_level` and `confidence`
fields. -/
structure MethodResult where
  correlation : ℚ
  method_weight : ℚ
  confidence_level : Option ℚ
  confidence : Option ℚ
  deriving DecidableEq

/-- The effective weight of one method (comprehensive_analysis.py lines
164-172): the method weight, scaled by `confidence_level` when present,
otherwise by `confidence` when present. -/
def effectiveWeight (r : MethodResult) : ℚ :=
  match r.confidence_level with
  | some c => r.method_weight * c
  | none =>
    match r.confidence with
    | some c => r.method_weight * c
    | none => r.method_weight

/-- `total_weight` accumulated by `_meta_analyze_results`
(comprehensive_analysis.py line 175). -/
def totalWeight (rs : List MethodResult) : ℚ :=
  (rs.map effectiveWeight).sum

/-- The sum of the `weighted_correlations` list accumulated by
`_meta_analyze_results` (comprehensive_analysis.py line 174). -/
def weightedCorrSum (rs : List MethodResult) : ℚ :=
  (rs.map (fun r => r.correlation * effectiveWeight r)).sum

/-- The `combined_correlation` computation of
`ComprehensiveAnalyzer._meta_analyze_results`
(comprehensive_analysis.py lines 177-180). -/
def meta_combined_correlation (rs : List MethodResult) : ℚ :=
  if 0 < totalWeight rs then weightedCorrSum rs / totalWeight rs else 0

/-- `PolygenicCalculator._calculate_genotype_effect`
(polygenic_calculator.py lines 133-150): a genotype string that is not a
length-2 allele pair contributes 0; a homozygous pair counts 2 risk alleles
for a positive weight and 0 otherwise; a heterozygous pair counts 1. -/
def calculate_genotype_effect (genotype : String) (weight : ℚ) : ℚ :=
  match genotype.toList with
  | [a, b] =>
    if a = b then
      if 0 < weight then weight * 2 else weight * 0
    else
      weight * 1
  | _ => 0

/-- The `PolygenicRiskScore` dataclass (polygenic_calculator.py lines
9-17). -/
structure PolygenicRiskScore where
  trait : String
  score : ℝ
  percentile : ℝ
  risk_category : String
  variant_count : ℕ
  confidence : ℚ

/-- The `PRS_WEIGHTS` table (polygenic_calculator.py lines 24-55). -/
def PRS_WEIGHTS : List (String × List (String × ℚ)) :=
  [("cardiovascular_disease",
     [("rs429358", 35/100), ("rs7412", -28/100), ("rs662", 15/100),
      ("rs1333049", 22/100), ("rs1801133", 12/100)]),
   ("cognitive_ability",
     [("rs4680", -18/100), ("rs6265", 25/100), ("rs25531", 15/100),
      ("rs1800497", -12/100)]),
   ("inflammatory_response",
     [("rs1800629", 30/100), ("rs1800896", -20/100), ("rs1143634", 25/100),
      ("rs16944", 18/100)]),
   ("metabolic_efficiency",
     [("rs1801133", 22/100), ("rs1801282", -28/100), ("rs7903146", 32/100),
      ("rs9939609", 18/100)]),
   ("athletic_performance",
     [("rs1815739", 45/100), ("rs4994", 25/100), ("rs1800012", 15/100)])]

/-- The `POPULATION_REFERENCES` table (polygenic_calculator.py lines
58-84), each entry a key-value record of its mean, standard deviation and
trait-specific threshold. -/
def POPULATION_REFERENCES : List (String × List (String × ℚ)) :=
  [("cardiovascular_disease",
     [("mean", 0), ("std", 1), ("high_risk_threshold", 3/2)]),
   ("cognitive_ability",
     [("mean", 0), ("std", 1), ("high_ability_threshold", 1)]),
   ("inflammatory_response",
     [("mean", 0), ("std", 1), ("high_inflammation_threshold", 6/5)]),
   ("metabolic_efficiency",
     [("mean", 0), ("std", 1), ("efficient_threshold", -1/2)]),
   ("athletic_performance",
     [("mean", 0), ("std", 1), ("elite_threshold", 9/5)])]

/-- Field access `ref[key]` on one reference record; every record in the
table carries all the keys its readers use, so the KeyError case does not
arise and is not modelled. -/
def refField (ref : List (String × ℚ)) (key : String) : ℚ :=
  (ref.lookup key).getD 0

/-- `PolygenicCalculator._calculate_percentile` (polygenic_calculator.py
lines 152-163); `normCdf` models `scipy.stats.norm.cdf`. -/
noncomputable def calculate_percentile (normCdf : ℝ → ℝ)
    (references : List (String × List (String × ℚ))) (score : ℝ)
    (trait : String) : ℝ :=
  let ref := (references.lookup trait).getD []
  let z_score := (score - (refField ref "mean" : ℝ)) / (refField ref "std" : ℝ)
  max 0 (min 100 (normCdf z_score * 100))

/-- `PolygenicCalculator._determine_risk_category`
(polygenic_calculator.py lines 165-218). -/
noncomputable def determine_risk_category
    (references : List (String × List (String × ℚ))) (score : ℝ)
    (trait : String) : String :=
  open Classical in
  let ref := (references.lookup trait).getD []
  let z_score := (score - (refField ref "mean" : ℝ)) / (refField ref "std" : ℝ)
  if trait = "cardiovascular_disease" then
    if (refField ref "high_risk_threshold" : ℝ) ≤ z_score then "High Risk"
    else if (1/2 : ℝ) ≤ z_score then "Moderate Risk"
    else if (-1/2 : ℝ) ≤ z_score then "Average Risk"
    else "Low Risk"
  else if trait = "cognitive_ability" then
    if (refField ref "high_ability_threshold" : ℝ) ≤ z_score then "High Ability"
    else if (0 : ℝ) ≤ z_score then "Above Average"
    else if (-1 : ℝ) ≤ z_score then "Average"
    else "Below Average"
  else if trait = "inflammatory_response" then
    if (refField ref "high_inflammation_threshold" : ℝ) ≤ z_score then "High Inflammation"
    else if (0 : ℝ) ≤ z_score then "Moderate Inflammation"
    else "Low Inflammation"
  else if trait = "metabolic_efficiency" then
    if z_score ≤ (refField ref "efficient_threshold" : ℝ) then "Highly Efficient"
    else if z_score ≤ (0 : ℝ) then "Efficient"
    else if z_score ≤ (1 : ℝ) then "Average"
    else "Inefficient"
  else if trait = "athletic_performance" then
    if (refField ref "elite_threshold" : ℝ) ≤ z_score then "Elite Potential"
    else if (1 : ℝ) ≤ z_score then "High Potential"
    else if (0 : ℝ) ≤ z_score then "Above Average"
    else "Average"
  else "Unknown"

/-- The weight-table fold of `PolygenicCalculator.calculate_prs`
(polygenic_calculator.py lines 105-113), accumulating the raw score and
the number of variants found.  A genetic profile is modelled as the map
from rsid to the genotype string of the variant stored under it, the only
profile data the calculator reads. -/
def prsFold (weights : List (String × ℚ)) (profile : String → Option String) :
    ℚ × ℕ :=
  weights.foldl (fun acc rw =>
    match profile rw.1 with
    | some g => (acc.1 + calculate_genotype_effect g rw.2, acc.2 + 1)
    | none => acc) (0, 0)

/-- The trait score numerator stated directly: the sum, over the trait
variants present in the profile, of the genotype effect of the stored
genotype under the variant weight.  The loop of calculate_prs accumulates
exactly this. -/
def prsRawSum (weights : List (String × ℚ)) (profile : String → Option String) : ℚ :=
  (weights.filterMap (fun rw =>
    (profile rw.1).map (fun g => calculate_genotype_effect g rw.2))).sum

/-- The number of trait variants present in the profile, stated
directly. -/
def prsCount (weights : List (String × ℚ)) (profile : String → Option String) : ℕ :=
  weights.countP (fun rw => (profile rw.1).isSome)

/-- `PolygenicCalculator.calculate_prs` (polygenic_calculator.py lines
91-131), over the calculator's trait-weight and reference tables. -/
noncomputable def calculate_prs (normCdf : ℝ → ℝ)
    (trait_weights : List (String × List (String × ℚ)))
    (references : List (String × List (String × ℚ)))
    (profile : String → Option String) (trait : String) :
    Except String PolygenicRiskScore :=
  match trait_weights.lookup trait with
  | none => .error ("Unknown trait: " ++ trait)
  | some weights =>
    let acc := prsFold weights profile
    let variant_count := acc.2
    let score : ℝ :=
      if 0 < variant_count then (acc.1 : ℝ) / Real.sqrt (variant_count : ℝ)
      else (acc.1 : ℝ)
    let percentile := calculate_percentile normCdf references score trait
    let risk_category := determine_risk_category references score trait
    let confidence : ℚ := min ((variant_count : ℚ) / (weights.length : ℚ)) 1
    .ok ⟨trait, score, percentile, risk_category, variant_count, confidence⟩

/-- `validate_correlation` with the ambient global random stream made
explicit: the function never consults it (validation.py lines 25-79 contain
no call into the random module). -/
noncomputable def validate_correlation_run (globalRng : List (List ℕ))
    (pearsonr spearmanr : List ℝ → List ℝ → ℝ × ℝ) (normPpf : ℝ → ℝ)
    (alpha : ℝ) (x y : List ℝ) (method : String) :
    Except String ValidationResultR :=
  validate_correlation pearsonr spearmanr normPpf alpha x y method

/-- `multiple_testing_correction` with the ambient global random stream
made explicit: the function never consults it (validation.py lines 185-222
contain no call into the random module). -/
def multiple_testing_correction_run (globalRng : List (List ℕ))
    (p_values : List ℚ) (method : String) : Except String (List ℚ) :=
  multiple_testing_correction p_values method

/-- A concrete correlation function used to instantiate the library
parameter in witnesses.  It agrees with scipy's Spearman correlation at
every data point a witness evaluates: NaN (`none`) on a constant pair,
1 on the pair ([1,2,3], [1,2,3]) and 1/2 on the pair ([1,2,3], [2,1,3]). -/
def corrWitness (a b : List ℚ) : Option ℚ :=
  if a = [1, 1, 1] then none
  else if b = [2, 1, 3] then some (1/2)
  else some 1

/-- A zero-valued stand-in for the real-valued external library parameters
(normal quantile, normal CDF), used in witnesses. -/
noncomputable def zeroFunR : ℝ → ℝ := fun _ => 0

/-- A zero-valued stand-in for the scipy correlation routines of
`validate_correlation`, used in witnesses. -/
noncomputable def zeroCorrR : List ℝ → List ℝ → ℝ × ℝ := fun _ _ => (0, 0)

/-- A concrete genetic profile for witnesses: homozygous "TT" at the ACTN3
variant rs1815739 and nothing else. -/
def profileACTN : String → Option String :=
  fun r => if r = "rs1815739" then some "TT" else none

/-- The rational comparison used throughout validation.py sorts is
transitive and total, so mergeSort output is sorted. -/
theorem mergeSortQ_sorted (L : List ℚ) :
    (L.mergeSort (fun a b => decide (a ≤ b))).Pairwise (fun a b => a ≤ b) := by
  have h := @List.sorted_mergeSort ℚ (fun a b => decide (a ≤ b))
    (fun a b c hab hbc => by
      simp only [decide_eq_true_eq] at *
      exact le_trans hab hbc)
    (fun a b => by
      simp only [Bool.or_eq_true, decide_eq_true_eq]
      exact le_total a b) L
  simpa using h

/-- Sorting an already sorted list changes nothing. -/
theorem mergeSortQ_idem (L : List ℚ) :
    (L.mergeSort (fun a b => decide (a ≤ b))).mergeSort (fun a b => decide (a ≤ b)) =
      L.mergeSort (fun a b => decide (a ≤ b)) := by
  apply List.mergeSort_of_sorted
  have h := mergeSortQ_sorted L
  exact h.imp (fun hab => by simpa using hab)

/-- `percentile` sorts internally, so presorting its data is harmless. -/
theorem percentile_mergeSort (L : List ℚ) (q : ℚ) :
    percentile (L.mergeSort (fun a b => decide (a ≤ b))) q = percentile L q := by
  simp only [percentile, mergeSortQ_idem]

/-- C1: evaluation of the code at a failing input.  For the mapping with a
single pair "pair1" on which both per-pair tests succeeded (a Pearson and a
Spearman result, each with p-value 1/2, so two pooled p-values), the
FDR-correction phase of comprehensive_validation does not append exactly
one corrected result per original test and return normally: because the
Python loop iterates over the list it appends to, it revisits the appended
corrected results and reads the pooled corrected p-value list out of
bounds, raising an IndexError. -/
theorem comprehensive_validation_correction_raises :
    comprehensive_validation_correction (1/20)
      [("pair1", [⟨"Pearson Correlation", some 1, 1/2, (1/2, 1/2), "", true⟩,
                  ⟨"Spearman Correlation", some 1, 1/2, (1/2, 1/2), "", true⟩])]
      [1/2, 1/2] = .error () := by
  have hcp : multiple_testing_correction [1/2, 1/2] "fdr" = .ok [1/2, 1/2] := by
    have hms : argsort [1/2, 1/2] = [0, 1] := by
      rw [argsort]
      show List.mergeSort (List.range 2) _ = [0, 1]
      rw [List.range_succ, List.range_succ, List.range_zero]
      apply List.mergeSort_of_sorted
      simp
    rw [multiple_testing_correction]
    simp only [hms]
    norm_num [bhPass, scatterStore, List.range_succ, List.lookup]
    rfl
  rw [comprehensive_validation_correction]
  norm_num [hcp, fdrCorrectAll]
  simp [fdrCorrectName, mkCorrected]

/-- C4: the meta-analysis combined correlation equals the sum of
correlations times effective weights divided by the total effective weight
whenever that total is positive, and is exactly 0, with no division error
and no NaN, when the total effective weight is 0. -/
theorem meta_combined_correlation_spec (rs : List MethodResult) :
    (0 < totalWeight rs →
      meta_combined_correlation rs = weightedCorrSum rs / totalWeight rs) ∧
    (totalWeight rs = 0 → meta_combined_correlation rs = 0) := by
  refine ⟨fun h => ?_, fun h => ?_⟩
  · simp [meta_combined_correlation, h]
  · simp [meta_combined_correlation, h]

/-- Witness for C4 at a concrete two-method list with zero total effective
weight: one method with positive fixed weight but zero confidence level,
one with zero fixed weight. -/
theorem meta_combined_correlation_spec_witness :
    totalWeight [⟨1, 2/5, some 0, none⟩, ⟨-1, 0, none, some 1⟩] = 0 ∧
    meta_combined_correlation [⟨1, 2/5, some 0, none⟩, ⟨-1, 0, none, some 1⟩] = 0 := by
  have h : totalWeight [⟨1, 2/5, some 0, none⟩, ⟨-1, 0, none, some 1⟩] = 0 := by
    norm_num [totalWeight, effectiveWeight]
  exact ⟨h, (meta_combined_correlation_spec
    [⟨1, 2/5, some 0, none⟩, ⟨-1, 0, none, some 1⟩]).2 h⟩

/-- C3: with at least 3 observations (and equal lengths for the
permutation test), if every resample in the random stream yields a
non-finite correlation — in particular when the stream is empty, the
n_bootstrap = 0 case — bootstrap_validation and permutation_test do not
raise but return the degraded fallback result with p-value exactly 1,
confidence interval (-1, 1) and passed = false; failing resamples are
dropped, not treated as errors. -/
theorem resampling_all_failed
    (corr : List ℚ → List ℚ → Option ℚ) (alpha : ℚ)
    (rngB rngP : List (List ℕ)) (x y : List ℚ)
    (h3 : 3 ≤ x.length) (hlen : x.length = y.length)
    (hB : ∀ idxs ∈ rngB,
      corr (idxs.map (fun i => x.getD i 0)) (idxs.map (fun i => y.getD i 0)) = none)
    (hP : ∀ idxs ∈ rngP, corr x (idxs.map (fun i => y.getD i 0)) = none) :
    bootstrap_validation corr rngB x y =
      .ok ⟨"Bootstrap Validation", corr x y, 1, (-1, 1),
           "Bootstrap validation failed", false⟩ ∧
    permutation_test corr alpha rngP x y =
      .ok ⟨"Permutation Test", corr x y, 1, (-1, 1),
           "Permutation test failed", false⟩ := by
  have hBe : bootstrapCorrs corr rngB x y = [] := by
    rw [bootstrapCorrs]
    exact List.filterMap_eq_nil_iff.mpr hB
  have hPe : permCorrs corr rngP x y = [] := by
    rw [permCorrs]
    exact List.filterMap_eq_nil_iff.mpr hP
  constructor
  · rw [bootstrap_validation]
    rw [if_neg (by omega)]
    simp [hBe]
  · rw [permutation_test]
    rw [if_neg (by push_neg; exact ⟨hlen, by omega⟩)]
    simp [hPe]

/-- Witness for C3 with an empty resample stream (the n_bootstrap = 0
case) on three observations. -/
theorem resampling_all_failed_witness :
    bootstrap_validation corrWitness [] [0, 1, 2] [0, 1, 2] =
      .ok ⟨"Bootstrap Validation", corrWitness [0, 1, 2] [0, 1, 2], 1, (-1, 1),
           "Bootstrap validation failed", false⟩ ∧
    permutation_test corrWitness (1/20) [] [0, 1, 2] [0, 1, 2] =
      .ok ⟨"Permutation Test", corrWitness [0, 1, 2] [0, 1, 2], 1, (-1, 1),
           "Permutation test failed", false⟩ :=
  resampling_all_failed corrWitness (1/20) [] [] [0, 1, 2] [0, 1, 2]
    (by decide) rfl (by simp) (by simp)

/-- C5: with at least 3 observations, an original correlation, and at
least one retained bootstrap resample, bootstrap_validation returns a
result whose p-value is the fraction of retained bootstrap correlations
with absolute value at most the absolute value of the original
correlation, whose confidence interval consists of the 2.5th and 97.5th
percentiles of the retained bootstrap correlations, and which passes if
and only if both interval bounds have the same nonzero sign. -/
theorem bootstrap_validation_success
    (corr : List ℚ → List ℚ → Option ℚ) (rng : List (List ℕ))
    (x y : List ℚ) (oc : ℚ)
    (h3 : 3 ≤ x.length) (hoc : corr x y = some oc)
    (hne : bootstrapCorrs corr rng x y ≠ []) :
    ∃ v, bootstrap_validation corr rng x y = .ok v ∧
      v.p_value = ((bootstrapCorrs corr rng x y).countP
          (fun c => decide (|c| ≤ |oc|)) : ℚ) /
        ((bootstrapCorrs corr rng x y).length : ℚ) ∧
      v.confidence_interval =
        (percentile (bootstrapCorrs corr rng x y) (5/2),
         percentile (bootstrapCorrs corr rng x y) (195/2)) ∧
      (v.passed = true ↔
        (0 < v.confidence_interval.1 ∧ 0 < v.confidence_interval.2) ∨
        (v.confidence_interval.1 < 0 ∧ v.confidence_interval.2 < 0)) := by
  rw [bootstrap_validation, if_neg (by omega)]
  rw [if_neg (by simpa using hne)]
  refine ⟨_, rfl, ?_, ?_, ?_⟩
  · have hperm := List.mergeSort_perm (bootstrapCorrs corr rng x y)
      (fun a b => decide (a ≤ b))
    rw [hoc]
    show (((bootstrapCorrs corr rng x y).mergeSort _).countP _ : ℚ) / _ = _
    rw [hperm.countP_eq, List.length_mergeSort]
    rfl
  · show (percentile ((bootstrapCorrs corr rng x y).mergeSort _) _,
          percentile ((bootstrapCorrs corr rng x y).mergeSort _) _) = _
    rw [percentile_mergeSort, percentile_mergeSort]
  · show decide (0 < _ * _) = true ↔ _
    rw [decide_eq_true_eq]
    exact mul_pos_iff

/-- Witness for C5 with one identity resample on the data (1,2,3) against
itself, whose stand-in correlation is 1. -/
theorem bootstrap_validation_success_witness :
    ∃ v, bootstrap_validation corrWitness [[0, 1, 2]] [1, 2, 3] [1, 2, 3] = .ok v ∧
      v.p_value = ((bootstrapCorrs corrWitness [[0, 1, 2]] [1, 2, 3] [1, 2, 3]).countP
          (fun c => decide (|c| ≤ |(1 : ℚ)|)) : ℚ) /
        ((bootstrapCorrs corrWitness [[0, 1, 2]] [1, 2, 3] [1, 2, 3]).length : ℚ) ∧
      v.confidence_interval =
        (percentile (bootstrapCorrs corrWitness [[0, 1, 2]] [1, 2, 3] [1, 2, 3]) (5/2),
         percentile (bootstrapCorrs corrWitness [[0, 1, 2]] [1, 2, 3] [1, 2, 3]) (195/2)) ∧
      (v.passed = true ↔
        (0 < v.confidence_interval.1 ∧ 0 < v.confidence_interval.2) ∨
        (v.confidence_interval.1 < 0 ∧ v.confidence_interval.2 < 0)) :=
  bootstrap_validation_success corrWitness [[0, 1, 2]] [1, 2, 3] [1, 2, 3] 1
    (by decide) (by decide) (by decide)

/-- C6: validate_correlation fails exactly on mismatched lengths, fewer
than 3 observations, or a method other than pearson and spearman; a length
violation yields the insufficient-data error (checked first), an unknown
method with valid data yields the invalid-argument error, and every other
call returns a result. -/
theorem validate_correlation_error_iff
    (pe sp : List ℝ → List ℝ → ℝ × ℝ) (ppf : ℝ → ℝ) (alpha : ℝ)
    (x y : List ℝ) (method : String) :
    ((∃ e, validate_correlation pe sp ppf alpha x y method = .error e) ↔
      (x.length ≠ y.length ∨ x.length < 3 ∨
        (method ≠ "pearson" ∧ method ≠ "spearman"))) ∧
    ((x.length ≠ y.length ∨ x.length < 3) →
      validate_correlation pe sp ppf alpha x y method =
        .error "Invalid data for correlation analysis") ∧
    ((x.length = y.length ∧ 3 ≤ x.length ∧ method ≠ "pearson" ∧ method ≠ "spearman") →
      validate_correlation pe sp ppf alpha x y method =
        .error ("Unknown correlation method: " ++ method)) ∧
    ((x.length = y.length ∧ 3 ≤ x.length ∧ (method = "pearson" ∨ method = "spearman")) →
      ∃ v, validate_correlation pe sp ppf alpha x y method = .ok v) := by
  rw [validate_correlation]
  by_cases hl : x.length ≠ y.length ∨ x.length < 3
  · rw [if_pos hl]
    refine ⟨⟨fun _ => hl.imp id Or.inl, fun _ => ⟨_, rfl⟩⟩, fun _ => rfl, ?_, ?_⟩
    · rintro ⟨h1, h2, _, _⟩
      rcases hl with h | h <;> omega
    · rintro ⟨h1, h2, _⟩
      rcases hl with h | h <;> omega
  · rw [if_neg hl]
    push_neg at hl
    by_cases hp : method = "pearson"
    · rw [if_pos hp]
      refine ⟨⟨?_, ?_⟩, ?_, ?_, fun _ => ⟨_, rfl⟩⟩
      · rintro ⟨e, he⟩
        exact absurd he (by simp)
      · rintro (h | h | ⟨hne, _⟩)
        · omega
        · omega
        · exact absurd hp hne
      · intro h
        rcases h with h | h <;> omega
      · rintro ⟨_, _, hne, _⟩
        exact absurd hp hne
    · rw [if_neg hp]
      by_cases hs : method = "spearman"
      · rw [if_pos hs]
        refine ⟨⟨?_, ?_⟩, ?_, ?_, fun _ => ⟨_, rfl⟩⟩
        · rintro ⟨e, he⟩
          exact absurd he (by simp)
        · rintro (h | h | ⟨_, hne⟩)
          · omega
          · omega
          · exact absurd hs hne
        · intro h
          rcases h with h | h <;> omega
        · rintro ⟨_, _, _, hne⟩
          exact absurd hs hne
      · rw [if_neg hs]
        refine ⟨⟨fun _ => Or.inr (Or.inr ⟨hp, hs⟩), fun _ => ⟨_, rfl⟩⟩, ?_,
          fun _ => rfl, ?_⟩
        · intro h
          rcases h with h | h <;> omega
        · rintro ⟨_, _, hm⟩
          rcases hm with h | h
          · exact absurd h hp
          · exact absurd h hs

/-- Witness for C6: an unknown method on valid data, a valid call, and a
length violation, each evaluated concretely. -/
theorem validate_correlation_error_iff_witness :
    validate_correlation zeroCorrR zeroCorrR zeroFunR (1/2 : ℝ)
      [0, 1, 2] [0, 1, 2] "kendall" =
      .error ("Unknown correlation method: " ++ "kendall") ∧
    (∃ v, validate_correlation zeroCorrR zeroCorrR zeroFunR (1/2 : ℝ)
      [0, 1, 2] [0, 1, 2] "pearson" = .ok v) ∧
    validate_correlation zeroCorrR zeroCorrR zeroFunR (1/2 : ℝ)
      [0, 1] [0, 1, 2] "pearson" =
      .error "Invalid data for correlation analysis" :=
  ⟨(validate_correlation_error_iff zeroCorrR zeroCorrR zeroFunR (1/2 : ℝ)
      [0, 1, 2] [0, 1, 2] "kendall").2.2.1 ⟨rfl, by decide, by decide, by decide⟩,
   (validate_correlation_error_iff zeroCorrR zeroCorrR zeroFunR (1/2 : ℝ)
      [0, 1, 2] [0, 1, 2] "pearson").2.2.2 ⟨rfl, by decide, Or.inl rfl⟩,
   (validate_correlation_error_iff zeroCorrR zeroCorrR zeroFunR (1/2 : ℝ)
      [0, 1] [0, 1, 2] "pearson").2.1 (Or.inl (by decide))⟩

/-- The hyperbolic tangent is monotone. -/
theorem tanh_le_tanh_of_le {a b : ℝ} (h : a ≤ b) : Real.tanh a ≤ Real.tanh b := by
  rw [Real.tanh_eq_sinh_div_cosh, Real.tanh_eq_sinh_div_cosh]
  rw [div_le_div_iff₀ (Real.cosh_pos a) (Real.cosh_pos b)]
  have hs : 0 ≤ Real.sinh (b - a) := Real.sinh_nonneg_iff.mpr (sub_nonneg.mpr h)
  rw [Real.sinh_sub] at hs
  nlinarith [Real.cosh_pos a, Real.cosh_pos b]

/-- The confidence interval a `correlationResult` carries, independently
of the significance verdict. -/
theorem correlationResult_ci (tn : String) (c p : ℝ) (ppf : ℝ → ℝ)
    (alpha : ℝ) (n : ℕ) :
    (correlationResult tn c p ppf alpha n).confidence_interval =
      if 3 < n then
        (Real.tanh (arctanh c - ppf (1 - alpha / 2) * (1 / Real.sqrt ((n : ℝ) - 3))),
         Real.tanh (arctanh c + ppf (1 - alpha / 2) * (1 / Real.sqrt ((n : ℝ) - 3))))
      else (-1, 1) := by
  rw [correlationResult]
  split_ifs <;> rfl

/-- The statistic a `correlationResult` carries is the correlation it was
given. -/
theorem correlationResult_statistic (tn : String) (c p : ℝ) (ppf : ℝ → ℝ)
    (alpha : ℝ) (n : ℕ) :
    (correlationResult tn c p ppf alpha n).statistic = c := by
  rw [correlationResult]
  split_ifs <;> rfl

/-- C7: on valid data, validate_correlation returns a result whose
confidence interval is the Fisher z-transform interval
tanh(arctanh r ± z_crit / sqrt(n-3)) when n > 3 and exactly (-1, 1) when
n ≤ 3, with lower bound at most upper bound whenever the normal quantile
at 1 - alpha/2 is non-negative. -/
theorem validate_correlation_ci
    (pe sp : List ℝ → List ℝ → ℝ × ℝ) (ppf : ℝ → ℝ) (alpha : ℝ)
    (x y : List ℝ) (method : String)
    (hlen : x.length = y.length) (h3 : 3 ≤ x.length)
    (hm : method = "pearson" ∨ method = "spearman")
    (hz : 0 ≤ ppf (1 - alpha / 2)) :
    ∃ v, validate_correlation pe sp ppf alpha x y method = .ok v ∧
      (3 < x.length →
        v.confidence_interval =
          (Real.tanh (arctanh v.statistic -
             ppf (1 - alpha / 2) * (1 / Real.sqrt ((x.length : ℝ) - 3))),
           Real.tanh (arctanh v.statistic +
             ppf (1 - alpha / 2) * (1 / Real.sqrt ((x.length : ℝ) - 3))))) ∧
      (x.length ≤ 3 → v.confidence_interval = (-1, 1)) ∧
      v.confidence_interval.1 ≤ v.confidence_interval.2 := by
  have hmain : ∀ tn c p, ∃ v,
      (correlationResult tn c p ppf alpha x.length : ValidationResultR) = v ∧
      (3 < x.length →
        v.confidence_interval =
          (Real.tanh (arctanh v.statistic -
             ppf (1 - alpha / 2) * (1 / Real.sqrt ((x.length : ℝ) - 3))),
           Real.tanh (arctanh v.statistic +
             ppf (1 - alpha / 2) * (1 / Real.sqrt ((x.length : ℝ) - 3))))) ∧
      (x.length ≤ 3 → v.confidence_interval = (-1, 1)) ∧
      v.confidence_interval.1 ≤ v.confidence_interval.2 := by
    intro tn c p
    refine ⟨_, rfl, ?_, ?_, ?_⟩
    · intro hn
      rw [correlationResult_ci, if_pos hn, correlationResult_statistic]
    · intro hn
      rw [correlationResult_ci, if_neg (by omega)]
    · rw [correlationResult_ci]
      by_cases hn : 3 < x.length
      · rw [if_pos hn]
        have hse : (0 : ℝ) ≤ 1 / Real.sqrt ((x.length : ℝ) - 3) :=
          one_div_nonneg.mpr (Real.sqrt_nonneg _)
        have hprod : (0 : ℝ) ≤ ppf (1 - alpha / 2) * (1 / Real.sqrt ((x.length : ℝ) - 3)) :=
          mul_nonneg hz hse
        exact tanh_le_tanh_of_le (by linarith)
      · rw [if_neg hn]
        norm_num
  rw [validate_correlation, if_neg (by push_neg; exact ⟨hlen, by omega⟩)]
  rcases hm with hp | hs
  · rw [if_pos hp]
    exact (hmain "Pearson Correlation" (pe x y).1 (pe x y).2).imp
      (fun v hv => ⟨by rw [← hv.1], hv.2.1, hv.2.2.1, hv.2.2.2⟩)
  · by_cases hp : method = "pearson"
    · rw [if_pos hp]
      exact (hmain "Pearson Correlation" (pe x y).1 (pe x y).2).imp
        (fun v hv => ⟨by rw [← hv.1], hv.2.1, hv.2.2.1, hv.2.2.2⟩)
    · rw [if_neg hp, if_pos hs]
      exact (hmain "Spearman Correlation" (sp x y).1 (sp x y).2).imp
        (fun v hv => ⟨by rw [← hv.1], hv.2.1, hv.2.2.1, hv.2.2.2⟩)

/-- Witness for C7 at three observations (the n = 3 branch, whose interval
is exactly (-1, 1)). -/
theorem validate_correlation_ci_witness :
    ∃ v, validate_correlation zeroCorrR zeroCorrR zeroFunR (1/20 : ℝ)
        [0, 1, 2] [0, 1, 2] "spearman" = .ok v ∧
      (3 < ([0, 1, 2] : List ℝ).length →
        v.confidence_interval =
          (Real.tanh (arctanh v.statistic -
             zeroFunR (1 - (1/20 : ℝ) / 2) *
               (1 / Real.sqrt ((([0, 1, 2] : List ℝ).length : ℝ) - 3))),
           Real.tanh (arctanh v.statistic +
             zeroFunR (1 - (1/20 : ℝ) / 2) *
               (1 / Real.sqrt ((([0, 1, 2] : List ℝ).length : ℝ) - 3))))) ∧
      (([0, 1, 2] : List ℝ).length ≤ 3 → v.confidence_interval = (-1, 1)) ∧
      v.confidence_interval.1 ≤ v.confidence_interval.2 :=
  validate_correlation_ci zeroCorrR zeroCorrR zeroFunR (1/20 : ℝ)
    [0, 1, 2] [0, 1, 2] "spearman" rfl (by decide) (Or.inr rfl) le_rfl


/-- The accumulator loop of calculate_prs computes exactly the direct sum
and count of the trait variants present in the profile. -/
theorem prsFold_eq (weights : List (String × ℚ)) (profile : String → Option String) :
    prsFold weights profile = (prsRawSum weights profile, prsCount weights profile) := by
  rw [prsFold]
  have hgen : ∀ (ws : List (String × ℚ)) (s : ℚ) (c : ℕ),
      ws.foldl (fun acc rw =>
        match profile rw.1 with
        | some g => (acc.1 + calculate_genotype_effect g rw.2, acc.2 + 1)
        | none => acc) (s, c) =
      (s + prsRawSum ws profile, c + prsCount ws profile) := by
    intro ws
    induction ws with
    | nil =>
      intro s c
      simp [prsRawSum, prsCount]
    | cons hd tl ih =>
      intro s c
      cases hpf : profile hd.1 with
      | none =>
        simp only [List.foldl_cons, hpf, ih, prsRawSum, prsCount,
          List.filterMap_cons, List.countP_cons, hpf]
        simp [hpf]
      | some g =>
        simp only [List.foldl_cons, hpf, ih, prsRawSum, prsCount,
          List.filterMap_cons, List.countP_cons]
        simp [hpf]
        constructor
        · ring
        · omega
  simpa using hgen weights 0 0

/-- When no trait variant is present in the profile, the raw score sum is
0. -/
theorem prsRawSum_eq_zero_of_count_zero (weights : List (String × ℚ))
    (profile : String → Option String) (h : prsCount weights profile = 0) :
    prsRawSum weights profile = 0 := by
  rw [prsCount, List.countP_eq_zero] at h
  rw [prsRawSum]
  have : weights.filterMap (fun rw =>
      (profile rw.1).map (fun g => calculate_genotype_effect g rw.2)) = [] := by
    apply List.filterMap_eq_nil_iff.mpr
    intro a ha
    have := h a ha
    cases hpf : profile a.1 with
    | none => simp
    | some g => simp [hpf] at this
  simp [this]

/-- C8: for a known trait, calculate_prs scores the profile by summing
weight times risk-allele count over the trait variants present, dividing
by the square root of the number found (score 0 when none are found),
where a homozygous length-2 genotype counts 2 risk alleles under a
positive weight and 0 under a negative one, and a heterozygous genotype
always counts 1. -/
theorem calculate_prs_score_spec (normCdf : ℝ → ℝ)
    (trait_weights references : List (String × List (String × ℚ)))
    (profile : String → Option String) (trait : String)
    (ws : List (String × ℚ)) (hw : trait_weights.lookup trait = some ws) :
    (∃ r, calculate_prs normCdf trait_weights references profile trait = .ok r ∧
      r.variant_count = prsCount ws profile ∧
      r.confidence = min ((prsCount ws profile : ℚ) / (ws.length : ℚ)) 1 ∧
      (0 < prsCount ws profile →
        r.score = (prsRawSum ws profile : ℝ) / Real.sqrt (prsCount ws profile : ℝ)) ∧
      (prsCount ws profile = 0 → r.score = 0)) ∧
    (∀ (a : Char) (w : ℚ), 0 < w →
      calculate_genotype_effect (String.mk [a, a]) w = w * 2) ∧
    (∀ (a : Char) (w : ℚ), w < 0 →
      calculate_genotype_effect (String.mk [a, a]) w = 0) ∧
    (∀ (a b : Char) (w : ℚ), a ≠ b →
      calculate_genotype_effect (String.mk [a, b]) w = w * 1) := by
  refine ⟨?_, ?_, ?_, ?_⟩
  · rw [calculate_prs, hw]
    dsimp only
    rw [prsFold_eq]
    refine ⟨_, rfl, rfl, rfl, fun h => ?_, fun h => ?_⟩
    · show (if 0 < prsCount ws profile then _ else _) = _
      rw [if_pos h]
    · show (if 0 < prsCount ws profile then _ else ((prsRawSum ws profile : ℚ) : ℝ)) = 0
      rw [if_neg (by omega)]
      rw [prsRawSum_eq_zero_of_count_zero ws profile h]
      norm_num
  · intro a w hw
    simp [calculate_genotype_effect, hw]
  · intro a w hw
    simp [calculate_genotype_effect, not_lt_of_gt hw]
  · intro a b w hab
    simp [calculate_genotype_effect, hab]

/-- Witness for C8: the athletic-performance trait on a profile carrying
only the homozygous ACTN3 variant. -/
theorem calculate_prs_score_spec_witness :
    ∃ r, calculate_prs zeroFunR PRS_WEIGHTS POPULATION_REFERENCES
        profileACTN "athletic_performance" = .ok r ∧
      r.variant_count = prsCount [("rs1815739", 45/100), ("rs4994", 25/100),
        ("rs1800012", 15/100)] profileACTN ∧
      r.confidence = min ((prsCount [("rs1815739", 45/100), ("rs4994", 25/100),
        ("rs1800012", 15/100)] profileACTN : ℚ) / 3) 1 ∧
      (0 < prsCount [("rs1815739", 45/100), ("rs4994", 25/100),
         ("rs1800012", 15/100)] profileACTN →
        r.score = (prsRawSum [("rs1815739", 45/100), ("rs4994", 25/100),
          ("rs1800012", 15/100)] profileACTN : ℝ) /
          Real.sqrt (prsCount [("rs1815739", 45/100), ("rs4994", 25/100),
            ("rs1800012", 15/100)] profileACTN : ℝ)) ∧
      (prsCount [("rs1815739", 45/100), ("rs4994", 25/100),
         ("rs1800012", 15/100)] profileACTN = 0 → r.score = 0) :=
  ((calculate_prs_score_spec zeroFunR PRS_WEIGHTS POPULATION_REFERENCES
    profileACTN "athletic_performance"
    [("rs1815739", 45/100), ("rs4994", 25/100), ("rs1800012", 15/100)] rfl).1)

/-- A genotype string that is not a length-2 pair contributes effect 0
whatever the weight. -/
theorem genotype_effect_bad_length (g : String) (hg : g.length ≠ 2) (w : ℚ) :
    calculate_genotype_effect g w = 0 := by
  rw [calculate_genotype_effect]
  have hlen : g.toList.length ≠ 2 := hg
  match hm : g.toList with
  | [] => rfl
  | [a] => rfl
  | [a, b] => exact absurd (by rw [hm] at hlen; simp at hlen) (fun h => h)
  | a :: b :: c :: t => rfl

/-- Adding a malformed-genotype variant to the profile leaves the raw
score sum unchanged. -/
theorem prsRawSum_update (ws : List (String × ℚ)) (profile : String → Option String)
    (v g : String) (h0 : ∀ w', calculate_genotype_effect g w' = 0)
    (hnone : profile v = none) :
    prsRawSum ws (fun r => if r = v then some g else profile r) =
      prsRawSum ws profile := by
  induction ws with
  | nil => rfl
  | cons hd tl ih =>
    simp only [prsRawSum, List.filterMap_cons] at ih ⊢
    by_cases hv : hd.1 = v
    · simp [hv, hnone, h0, ih]
    · simp only [if_neg hv]
      cases hpf : profile hd.1 with
      | none => simpa [hpf] using ih
      | some g0 => simpa [hpf] using ih

/-- Adding a variant to the profile under a key the trait table carries
exactly once raises the found-variant count by exactly one. -/
theorem prsCount_update (ws : List (String × ℚ)) (profile : String → Option String)
    (v g : String) (hnd : (ws.map Prod.fst).Nodup) (hmem : v ∈ ws.map Prod.fst)
    (hnone : profile v = none) :
    prsCount ws (fun r => if r = v then some g else profile r) =
      prsCount ws profile + 1 := by
  induction ws with
  | nil => simp at hmem
  | cons hd tl ih =>
    rw [List.map_cons, List.nodup_cons] at hnd
    by_cases hv : hd.1 = v
    · have hvtl : v ∉ tl.map Prod.fst := hv ▸ hnd.1
      have htl : List.countP (fun rw => (if rw.1 = v then some g else profile rw.1).isSome) tl =
          List.countP (fun rw => (profile rw.1).isSome) tl := by
        apply List.countP_congr
        intro a ha
        have hne : a.1 ≠ v := fun h => hvtl (h ▸ List.mem_map_of_mem Prod.fst ha)
        simp [hne]
      simp [prsCount, List.countP_cons, hv, hnone, htl]
    · have hmem2 : v ∈ tl.map Prod.fst := by
        rcases List.mem_cons.mp (List.map_cons Prod.fst hd tl ▸ hmem) with h | h
        · exact absurd h.symm hv
        · exact h
      have hih := ih hnd.2 hmem2
      simp only [prsCount] at hih
      simp [prsCount, List.countP_cons, hv, hih]
      omega

/-- A trait variant absent from the profile keeps the found count
strictly below the table size. -/
theorem prsCount_lt_length (ws : List (String × ℚ)) (profile : String → Option String)
    (v : String) (w : ℚ) (hmem : (v, w) ∈ ws) (hnone : profile v = none) :
    prsCount ws profile < ws.length := by
  rw [prsCount]
  apply lt_of_le_of_ne (List.countP_le_length _)
  intro h
  rw [List.countP_eq_length] at h
  have := h (v, w) hmem
  simp [hnone] at this

/-- calculate_prs on a known trait always returns a result, whose count,
confidence and score are the direct expressions. -/
theorem calculate_prs_ok (normCdf : ℝ → ℝ)
    (tw references : List (String × List (String × ℚ)))
    (profile : String → Option String) (trait : String)
    (ws : List (String × ℚ)) (hw : tw.lookup trait = some ws) :
    ∃ r, calculate_prs normCdf tw references profile trait = .ok r ∧
      r.variant_count = prsCount ws profile ∧
      r.confidence = min ((prsCount ws profile : ℚ) / (ws.length : ℚ)) 1 ∧
      r.score = (if 0 < prsCount ws profile
        then (prsRawSum ws profile : ℝ) / Real.sqrt (prsCount ws profile : ℝ)
        else ((prsRawSum ws profile : ℚ) : ℝ)) := by
  rw [calculate_prs, hw]
  dsimp only
  rw [prsFold_eq]
  exact ⟨_, rfl, rfl, rfl, rfl⟩

/-- C10: a trait variant present in the profile with a genotype string
that is not of length 2 contributes exactly 0 to the trait score sum, yet
is still counted: the variant count grows by one, the raw sum is
unchanged, the square-root normalisation denominator strictly grows, and
the coverage confidence min(found/total, 1) strictly rises. -/
theorem malformed_genotype_still_counted (normCdf : ℝ → ℝ)
    (trait_weights references : List (String × List (String × ℚ)))
    (profile : String → Option String) (trait : String)
    (ws : List (String × ℚ)) (v g : String) (w : ℚ)
    (hw : trait_weights.lookup trait = some ws)
    (hnd : (ws.map Prod.fst).Nodup)
    (hmem : (v, w) ∈ ws)
    (hnone : profile v = none)
    (hg : g.length ≠ 2) :
    calculate_genotype_effect g w = 0 ∧
    prsRawSum ws (fun r => if r = v then some g else profile r) =
      prsRawSum ws profile ∧
    prsCount ws (fun r => if r = v then some g else profile r) =
      prsCount ws profile + 1 ∧
    ∃ r r', calculate_prs normCdf trait_weights references profile trait = .ok r ∧
      calculate_prs normCdf trait_weights references
        (fun r0 => if r0 = v then some g else profile r0) trait = .ok r' ∧
      r'.variant_count = r.variant_count + 1 ∧
      Real.sqrt (r.variant_count : ℝ) < Real.sqrt (r'.variant_count : ℝ) ∧
      r.confidence < r'.confidence := by
  have h0 : ∀ w', calculate_genotype_effect g w' = 0 := genotype_effect_bad_length g hg
  have hsum := prsRawSum_update ws profile v g h0 hnone
  have hcnt := prsCount_update ws profile v g hnd (List.mem_map_of_mem Prod.fst hmem) hnone
  refine ⟨h0 w, hsum, hcnt, ?_⟩
  have hT : 0 < ws.length := List.length_pos.mpr (List.ne_nil_of_mem hmem)
  have hlt : prsCount ws profile < ws.length := prsCount_lt_length ws profile v w hmem hnone
  obtain ⟨r, hr, hrc, hrconf, hrs⟩ :=
    calculate_prs_ok normCdf trait_weights references profile trait ws hw
  obtain ⟨r', hr', hrc', hrconf', hrs'⟩ :=
    calculate_prs_ok normCdf trait_weights references
      (fun r0 => if r0 = v then some g else profile r0) trait ws hw
  refine ⟨r, r', hr, hr', ?_, ?_, ?_⟩
  · rw [hrc', hrc, hcnt]
  · rw [hrc', hrc, hcnt]
    apply Real.sqrt_lt_sqrt (by positivity)
    push_cast
    linarith
  · rw [hrconf, hrconf', hcnt]
    have hTQ : (0 : ℚ) < (ws.length : ℚ) := by exact_mod_cast hT
    have h1 : ((prsCount ws profile : ℚ)) / (ws.length : ℚ) ≤ 1 := by
      rw [div_le_one hTQ]
      exact_mod_cast le_of_lt hlt
    have h2 : (((prsCount ws profile + 1 : ℕ) : ℚ)) / (ws.length : ℚ) ≤ 1 := by
      rw [div_le_one hTQ]
      exact_mod_cast hlt
    rw [min_eq_left h1, min_eq_left h2]
    apply div_lt_div_of_pos_right ?_ hTQ
    push_cast
    linarith

/-- Witness for C10: adding the length-1 genotype "T" under rs4994 to the
ACTN3-only profile. -/
theorem malformed_genotype_still_counted_witness :
    calculate_genotype_effect "T" (25/100) = 0 ∧
    prsRawSum [("rs1815739", 45/100), ("rs4994", 25/100), ("rs1800012", 15/100)]
      (fun r => if r = "rs4994" then some "T" else profileACTN r) =
      prsRawSum [("rs1815739", 45/100), ("rs4994", 25/100), ("rs1800012", 15/100)]
        profileACTN ∧
    prsCount [("rs1815739", 45/100), ("rs4994", 25/100), ("rs1800012", 15/100)]
      (fun r => if r = "rs4994" then some "T" else profileACTN r) =
      prsCount [("rs1815739", 45/100), ("rs4994", 25/100), ("rs1800012", 15/100)]
        profileACTN + 1 ∧
    ∃ r r', calculate_prs zeroFunR PRS_WEIGHTS POPULATION_REFERENCES
        profileACTN "athletic_performance" = .ok r ∧
      calculate_prs zeroFunR PRS_WEIGHTS POPULATION_REFERENCES
        (fun r0 => if r0 = "rs4994" then some "T" else profileACTN r0)
        "athletic_performance" = .ok r' ∧
      r'.variant_count = r.variant_count + 1 ∧
      Real.sqrt (r.variant_count : ℝ) < Real.sqrt (r'.variant_count : ℝ) ∧
      r.confidence < r'.confidence :=
  malformed_genotype_still_counted zeroFunR PRS_WEIGHTS POPULATION_REFERENCES
    profileACTN "athletic_performance"
    [("rs1815739", 45/100), ("rs4994", 25/100), ("rs1800012", 15/100)]
    "rs4994" "T" (25/100) rfl (by decide) (by simp) rfl (by decide)


/-- C9: validate_correlation and multiple_testing_correction never consult
the ambient random stream (threading it through changes nothing), while
bootstrap_validation and permutation_test genuinely depend on it: for any
library correlation agreeing with Spearman at the evaluated points, two
different draws of the unseeded source give different results. -/
theorem randomness_usage :
    (∀ (r1 r2 : List (List ℕ)) (pe sp : List ℝ → List ℝ → ℝ × ℝ) (ppf : ℝ → ℝ)
       (alpha : ℝ) (x y : List ℝ) (method : String),
      validate_correlation_run r1 pe sp ppf alpha x y method =
        validate_correlation_run r2 pe sp ppf alpha x y method) ∧
    (∀ (r1 r2 : List (List ℕ)) (ps : List ℚ) (method : String),
      multiple_testing_correction_run r1 ps method =
        multiple_testing_correction_run r2 ps method) ∧
    (∀ corr : List ℚ → List ℚ → Option ℚ,
      corr [1, 1, 1] [1, 1, 1] = none → corr [1, 2, 3] [1, 2, 3] = some 1 →
      bootstrap_validation corr [[0, 0, 0]] [1, 2, 3] [1, 2, 3] ≠
        bootstrap_validation corr [[0, 1, 2]] [1, 2, 3] [1, 2, 3]) ∧
    (∀ corr : List ℚ → List ℚ → Option ℚ,
      corr [1, 2, 3] [1, 2, 3] = some 1 → corr [1, 2, 3] [2, 1, 3] = some (1/2) →
      permutation_test corr (1/20) [[0, 1, 2]] [1, 2, 3] [1, 2, 3] ≠
        permutation_test corr (1/20) [[1, 0, 2]] [1, 2, 3] [1, 2, 3]) := by
  refine ⟨fun _ _ _ _ _ _ _ _ _ => rfl, fun _ _ _ _ => rfl, ?_, ?_⟩
  · intro corr h1 h2
    have hbcA : bootstrapCorrs corr [[0, 0, 0]] [1, 2, 3] [1, 2, 3] = [] := by
      simp [bootstrapCorrs, h1]
    have hbcB : bootstrapCorrs corr [[0, 1, 2]] [1, 2, 3] [1, 2, 3] = [1] := by
      simp [bootstrapCorrs, h2]
    have hA : bootstrap_validation corr [[0, 0, 0]] [1, 2, 3] [1, 2, 3] =
        .ok ⟨"Bootstrap Validation", corr [1, 2, 3] [1, 2, 3], 1, (-1, 1),
             "Bootstrap validation failed", false⟩ := by
      rw [bootstrap_validation, if_neg (by decide)]
      simp [hbcA]
    have hB : bootstrap_validation corr [[0, 1, 2]] [1, 2, 3] [1, 2, 3] =
        .ok ⟨"Bootstrap Validation", corr [1, 2, 3] [1, 2, 3], 1, (1, 1),
             "Bootstrap validation completed", true⟩ := by
      rw [bootstrap_validation, if_neg (by decide)]
      simp [hbcB, h2, percentile, absLeNaN]
    rw [hA, hB]
    intro heq
    norm_num at heq
  · intro corr h1 h2
    have hpcA : permCorrs corr [[0, 1, 2]] [1, 2, 3] [1, 2, 3] = [1] := by
      simp [permCorrs, h1]
    have hpcB : permCorrs corr [[1, 0, 2]] [1, 2, 3] [1, 2, 3] = [1/2] := by
      simp [permCorrs, h2]
    have hA : permutation_test corr (1/20) [[0, 1, 2]] [1, 2, 3] [1, 2, 3] =
        .ok ⟨"Permutation Test", corr [1, 2, 3] [1, 2, 3], 1, (1, 1),
             "Permutation test completed", false⟩ := by
      rw [permutation_test, if_neg (by decide)]
      simp [hpcA, h1, absGeNaN, percentile]
      norm_num
    have hB : permutation_test corr (1/20) [[1, 0, 2]] [1, 2, 3] [1, 2, 3] =
        .ok ⟨"Permutation Test", corr [1, 2, 3] [1, 2, 3], 0, (1/2, 1/2),
             "Permutation test completed", true⟩ := by
      rw [permutation_test, if_neg (by decide)]
      simp [hpcB, h1, absGeNaN, percentile]
      have habs : |(1/2 : ℚ)| = 1/2 := by norm_num
      norm_num [List.countP_cons, List.countP_nil, habs]
    rw [hA, hB]
    intro heq
    norm_num at heq

/-- Witness for C9: the divergence of the stochastic procedures under two
concrete random streams, with the concrete stand-in correlation. -/
theorem randomness_usage_witness :
    bootstrap_validation corrWitness [[0, 0, 0]] [1, 2, 3] [1, 2, 3] ≠
      bootstrap_validation corrWitness [[0, 1, 2]] [1, 2, 3] [1, 2, 3] ∧
    permutation_test corrWitness (1/20) [[0, 1, 2]] [1, 2, 3] [1, 2, 3] ≠
      permutation_test corrWitness (1/20) [[1, 0, 2]] [1, 2, 3] [1, 2, 3] :=
  ⟨randomness_usage.2.2.1 corrWitness rfl rfl,
   randomness_usage.2.2.2 corrWitness rfl rfl⟩


/-- The Benjamini-Hochberg pass preserves length. -/
theorem bhPass_length (n : ℕ) (l : List (ℕ × ℚ)) : (bhPass n l).length = l.length := by
  induction l with
  | nil => rfl
  | cons hd tl ih =>
    obtain ⟨i, p⟩ := hd
    rw [bhPass]
    cases h : bhPass n tl with
    | nil =>
      rw [h] at ih
      simp only [List.length_nil] at ih
      simp only [List.length_cons, List.length_nil]
      omega
    | cons c cs =>
      rw [h] at ih
      simp only [List.length_cons] at ih
      simp only [List.length_cons]
      omega

/-- Each corrected value is at most the next one in sorted order: the
backwards minimum makes the corrected sequence a non-decreasing chain. -/
theorem bhPass_chain (n : ℕ) (l : List (ℕ × ℚ)) :
    (bhPass n l).Chain' (fun a b => a ≤ b) := by
  induction l with
  | nil => simp [bhPass]
  | cons hd tl ih =>
    obtain ⟨i, p⟩ := hd
    rw [bhPass]
    cases h : bhPass n tl with
    | nil => simp
    | cons c cs =>
      rw [h] at ih
      exact List.chain'_cons.mpr ⟨min_le_left _ _, ih⟩

/-- Over sorted non-negative p-values whose ranks stay below the total
count, each corrected value dominates its sorted p-value. -/
theorem bhPass_ge (n : ℕ) (l : List (ℕ × ℚ))
    (hs : l.Pairwise (fun a b => a.2 ≤ b.2))
    (hnn : ∀ a ∈ l, 0 ≤ a.2) (hin : ∀ a ∈ l, a.1 + 1 ≤ n) :
    List.Forall₂ (fun a c => a.2 ≤ c) l (bhPass n l) := by
  induction l with
  | nil => simp [bhPass]
  | cons hd tl ih =>
    obtain ⟨i, p⟩ := hd
    rw [List.pairwise_cons] at hs
    have hp0 : (0 : ℚ) ≤ p := hnn (i, p) (List.mem_cons_self _ _)
    have hi1 : (i : ℚ) + 1 ≤ (n : ℚ) := by
      have := hin (i, p) (List.mem_cons_self _ _)
      exact_mod_cast this
    have hmul : p ≤ p * (n : ℚ) / ((i : ℚ) + 1) := by
      rw [mul_div_assoc]
      have h1 : (1 : ℚ) ≤ (n : ℚ) / ((i : ℚ) + 1) := by
        rw [le_div_iff₀ (by positivity)]
        linarith
      nlinarith
    have ihh := ih hs.2 (fun a ha => hnn a (List.mem_cons_of_mem _ ha))
      (fun a ha => hin a (List.mem_cons_of_mem _ ha))
    rw [bhPass]
    cases h : bhPass n tl with
    | nil => exact List.Forall₂.cons le_rfl (h ▸ ihh)
    | cons c cs =>
      rw [h] at ihh
      refine List.Forall₂.cons (le_min ?_ hmul) ihh
      cases tl with
      | nil => simp [bhPass] at h
      | cons t ts =>
        have ht : t.2 ≤ c := (List.forall₂_cons.mp ihh).1
        have hpt : p ≤ t.2 := hs.1 t (List.mem_cons_self _ _)
        linarith

/-- argsort produces a permutation of the index range. -/
theorem argsort_perm (ps : List ℚ) : (argsort ps).Perm (List.range ps.length) := by
  rw [argsort]
  exact List.mergeSort_perm _ _

/-- argsort output has no duplicate indices. -/
theorem argsort_nodup (ps : List ℚ) : (argsort ps).Nodup :=
  ((argsort_perm ps).nodup_iff).mpr (List.nodup_range _)

/-- argsort output has one index per input p-value. -/
theorem argsort_length (ps : List ℚ) : (argsort ps).length = ps.length := by
  rw [argsort, List.length_mergeSort, List.length_range]

/-- Every argsort output indexes into the input list. -/
theorem argsort_mem {ps : List ℚ} {j : ℕ} (h : j ∈ argsort ps) : j < ps.length := by
  have := (argsort_perm ps).mem_iff.mp h
  simpa using this

/-- argsort lists the indices in ascending order of their p-values. -/
theorem argsort_sorted (ps : List ℚ) :
    (argsort ps).Pairwise (fun i j => ps.getD i 0 ≤ ps.getD j 0) := by
  rw [argsort]
  have h := @List.sorted_mergeSort ℕ (fun i j => decide (ps.getD i 0 ≤ ps.getD j 0))
    (fun a b c hab hbc => by
      simp only [decide_eq_true_eq] at *
      exact le_trans hab hbc)
    (fun a b => by
      simp only [Bool.or_eq_true, decide_eq_true_eq]
      exact le_total _ _) (List.range ps.length)
  exact h.imp (by simp)

/-- Componentwise indexing of a zip. -/
theorem zip_getElem (as : List ℕ) (bs : List ℚ) (k : ℕ)
    (h : k < (as.zip bs).length) (h1 : k < as.length) (h2 : k < bs.length) :
    (as.zip bs)[k] = (as[k], bs[k]) := by
  have hz : (as.zip bs)[k]? = some (as[k], bs[k]) :=
    List.getElem?_zip_eq_some.mpr ⟨List.getElem?_eq_getElem h1, List.getElem?_eq_getElem h2⟩
  have he := List.getElem?_eq_getElem h
  rw [he] at hz
  exact Option.some.inj hz

/-- Zipping preserves pairwise order on the second components. -/
theorem pairwise_zip_snd (as : List ℕ) (bs : List ℚ)
    (h : bs.Pairwise (fun a b => a ≤ b)) :
    (as.zip bs).Pairwise (fun x y => x.2 ≤ y.2) := by
  induction as generalizing bs with
  | nil => simp
  | cons a as ih =>
    cases bs with
    | nil => simp
    | cons b bs =>
      rw [List.pairwise_cons] at h
      rw [List.zip_cons_cons, List.pairwise_cons]
      refine ⟨fun y hy => ?_, ih bs h.2⟩
      exact h.1 y.2 (List.of_mem_zip hy).2

/-- In a zip with duplicate-free keys, lookup of the k-th key finds the
k-th value. -/
theorem lookup_zip_getD (idx : List ℕ) (vals : List ℚ) (hn : idx.Nodup)
    (k : ℕ) (hk : k < idx.length) (hv : k < vals.length) :
    (idx.zip vals).lookup (idx.getD k 0) = some (vals.getD k 0) := by
  induction idx generalizing vals k with
  | nil => simp at hk
  | cons i is ih =>
    cases vals with
    | nil => simp at hv
    | cons v vs =>
      rw [List.nodup_cons] at hn
      cases k with
      | zero => simp [List.lookup]
      | succ k =>
        have hkk : k < is.length := by simpa using hk
        have hvv : k < vs.length := by simpa using hv
        have hmem : is.getD k 0 ∈ is := by
          rw [List.getD_eq_getElem?_getD, List.getElem?_eq_getElem hkk]
          exact List.getElem_mem hkk
        have hne : (is.getD k 0 == i) = false :=
          beq_eq_false_iff_ne.mpr (fun he => hn.1 (he ▸ hmem))
        rw [List.getD_cons_succ, List.getD_cons_succ, List.zip_cons_cons, List.lookup]
        rw [hne]
        exact ih vs hn.2 k hkk hvv

/-- Reading the scattered array back at the k-th sorted index recovers
the k-th corrected value. -/
theorem scatterStore_getD (n : ℕ) (idx : List ℕ) (vals : List ℚ) (hn : idx.Nodup)
    (k : ℕ) (hk : k < idx.length) (hv : k < vals.length) (hlt : idx.getD k 0 < n) :
    (scatterStore n idx vals).getD (idx.getD k 0) 0 = vals.getD k 0 := by
  rw [scatterStore, List.getD_eq_getElem?_getD, List.getElem?_map,
    List.getElem?_range hlt]
  show ((idx.zip vals).lookup (idx.getD k 0)).getD 0 = vals.getD k 0
  rw [lookup_zip_getD idx vals hn k hk hv]
  rfl

/-- C2: multiple_testing_correction with method fdr returns, without
error, a list of the same length in the original order, such that
re-sorting the outputs by ascending original p-value (through the argsort
permutation) gives a monotonically non-decreasing sequence, and every
corrected value is at least its original p-value. -/
theorem fdr_correction_props (ps : List ℚ) (hnn : ∀ p ∈ ps, 0 ≤ p) :
    ∃ r, multiple_testing_correction ps "fdr" = .ok r ∧
      r.length = ps.length ∧
      (∀ j, j < ps.length → ps.getD j 0 ≤ r.getD j 0) ∧
      ((argsort ps).map (fun j => ps.getD j 0)).Chain' (fun a b => a ≤ b) ∧
      ((argsort ps).map (fun j => r.getD j 0)).Chain' (fun a b => a ≤ b) := by
  have hσlen : (argsort ps).length = ps.length := argsort_length ps
  have hsplen : ((argsort ps).map (fun j => ps.getD j 0)).length = ps.length := by
    rw [List.length_map, hσlen]
  have hpairslen :
      ((List.range ps.length).zip ((argsort ps).map (fun j => ps.getD j 0))).length =
        ps.length := by
    rw [List.length_zip, List.length_range, hsplen, Nat.min_self]
  have hclen : (bhPass ps.length
      ((List.range ps.length).zip ((argsort ps).map (fun j => ps.getD j 0)))).length =
        ps.length := by
    rw [bhPass_length, hpairslen]
  have hsps : ((argsort ps).map (fun j => ps.getD j 0)).Pairwise (fun a b => a ≤ b) := by
    rw [List.pairwise_map]
    exact argsort_sorted ps
  have hpairsnn : ∀ a ∈ (List.range ps.length).zip
      ((argsort ps).map (fun j => ps.getD j 0)), (0 : ℚ) ≤ a.2 := by
    intro a ha
    obtain ⟨j, hjσ, hje⟩ := List.mem_map.mp (List.of_mem_zip ha).2
    have hjlt := argsort_mem hjσ
    have hgd : ps.getD j 0 = ps[j] := by
      rw [List.getD_eq_getElem?_getD, List.getElem?_eq_getElem hjlt]
      rfl
    rw [← hje, hgd]
    exact hnn _ (List.getElem_mem hjlt)
  have hpairsin : ∀ a ∈ (List.range ps.length).zip
      ((argsort ps).map (fun j => ps.getD j 0)), a.1 + 1 ≤ ps.length := by
    intro a ha
    have := List.mem_range.mp (List.of_mem_zip ha).1
    omega
  have hforall := bhPass_ge ps.length _
    (pairwise_zip_snd _ _ hsps) hpairsnn hpairsin
  rw [List.forall₂_iff_get] at hforall
  have hrlen : (scatterStore ps.length (argsort ps)
      (bhPass ps.length ((List.range ps.length).zip
        ((argsort ps).map (fun j => ps.getD j 0))))).length = ps.length := by
    rw [scatterStore, List.length_map, List.length_range]
  -- the corrected value at sorted rank k, read back through the scatter
  have hscat : ∀ k, (hk : k < (argsort ps).length) → (argsort ps)[k] < ps.length →
      (scatterStore ps.length (argsort ps)
        (bhPass ps.length ((List.range ps.length).zip
          ((argsort ps).map (fun j => ps.getD j 0))))).getD ((argsort ps)[k]) 0 =
      (bhPass ps.length ((List.range ps.length).zip
        ((argsort ps).map (fun j => ps.getD j 0)))).getD k 0 := by
    intro k hk hklt
    have hgdk : (argsort ps).getD k 0 = (argsort ps)[k] := by
      rw [List.getD_eq_getElem?_getD, List.getElem?_eq_getElem hk]
      rfl
    have := scatterStore_getD ps.length (argsort ps)
      (bhPass ps.length ((List.range ps.length).zip
        ((argsort ps).map (fun j => ps.getD j 0))))
      (argsort_nodup ps) k hk (by omega) (by rw [hgdk]; exact hklt)
    rw [hgdk] at this
    exact this
  refine ⟨_, ?_, hrlen, ?_, hsps.chain', ?_⟩
  · rw [multiple_testing_correction]
    rw [if_neg (by decide), if_pos rfl]
  · intro j hj
    have hjσ : j ∈ argsort ps := (argsort_perm ps).mem_iff.mpr (List.mem_range.mpr hj)
    obtain ⟨k, hkσ, hkj⟩ := List.getElem_of_mem hjσ
    have hkn : k < ps.length := by omega
    have hkc : k < (bhPass ps.length ((List.range ps.length).zip
        ((argsort ps).map (fun j => ps.getD j 0)))).length := by omega
    have hkp : k < ((List.range ps.length).zip
        ((argsort ps).map (fun j => ps.getD j 0))).length := by omega
    have hpair : ((List.range ps.length).zip
        ((argsort ps).map (fun j => ps.getD j 0)))[k] =
        (k, ps.getD ((argsort ps)[k]) 0) := by
      rw [zip_getElem _ _ k hkp (by simpa using hkn) (by omega)]
      rw [List.getElem_range, List.getElem_map]
    have hle := hforall.2 k (by omega) (by omega)
    simp only [List.get_eq_getElem] at hle
    rw [hpair] at hle
    have hcd : (bhPass ps.length ((List.range ps.length).zip
        ((argsort ps).map (fun j => ps.getD j 0)))).getD k 0 =
        (bhPass ps.length ((List.range ps.length).zip
          ((argsort ps).map (fun j => ps.getD j 0))))[k] := by
      rw [List.getD_eq_getElem?_getD, List.getElem?_eq_getElem hkc]
      rfl
    have hrj := hscat k hkσ (hkj ▸ hj)
    rw [hkj] at hrj
    rw [hrj, hcd, ← hkj]
    exact hle
  · have hmap : (argsort ps).map (fun j =>
        (scatterStore ps.length (argsort ps)
          (bhPass ps.length ((List.range ps.length).zip
            ((argsort ps).map (fun j => ps.getD j 0))))).getD j 0) =
        bhPass ps.length ((List.range ps.length).zip
          ((argsort ps).map (fun j => ps.getD j 0))) := by
      apply List.ext_getElem
      · rw [List.length_map, hσlen, hclen]
      · intro k h1 h2
        rw [List.getElem_map]
        have hkσ : k < (argsort ps).length := by
          rw [List.length_map] at h1
          exact h1
        have hσk : (argsort ps)[k] < ps.length :=
          argsort_mem (List.getElem_mem hkσ)
        have := hscat k hkσ hσk
        rw [this]
        rw [List.getD_eq_getElem?_getD, List.getElem?_eq_getElem h2]
        rfl
    rw [hmap]
    exact (bhPass_chain _ _)

/-- Witness for C2 at the concrete p-value list (0.3, 0.1, 0.2). -/
theorem fdr_correction_props_witness :
    ∃ r, multiple_testing_correction [3/10, 1/10, 1/5] "fdr" = .ok r ∧
      r.length = ([3/10, 1/10, 1/5] : List ℚ).length ∧
      (∀ j, j < ([3/10, 1/10, 1/5] : List ℚ).length →
        ([3/10, 1/10, 1/5] : List ℚ).getD j 0 ≤ r.getD j 0) ∧
      ((argsort [3/10, 1/10, 1/5]).map
        (fun j => ([3/10, 1/10, 1/5] : List ℚ).getD j 0)).Chain' (fun a b => a ≤ b) ∧
      ((argsort [3/10, 1/10, 1/5]).map
        (fun j => r.getD j 0)).Chain' (fun a b => a ≤ b) :=
  fdr_correction_props [3/10, 1/10, 1/5] (by norm_num)

end AstroGenomic
